import Mathlib

/-!
# Verification of the gvgen graph model and dot serializer

A shallow embedding of `gvgen.py` (class `GvGen`): the node/link data model,
property dictionaries, the smart-link coalescing algorithm, and the per-link
part of the dot serializer.

Modelling conventions:
* Python dicts are insertion-ordered string maps; we model them as association
  lists (`List (String × String)`), where assignment to an existing key keeps
  its position and assignment to a fresh key appends at the end.
* Node references are modelled by node ids (ids are unique within a graph, so
  Python's by-value dict comparison of node records coincides with id
  comparison).
* Link objects are mutable and aliased in Python (`__link_smart` mutates the
  already-stored link found by `__link_exists`), so links live in a heap
  (`linkHeap`, indexed by allocation order) and the storage list `__links`
  holds heap indices.  A "link handle" as returned by `newLink` is a heap
  index.
* The numeric penwidth/arrowsize computations use Python floats and `str`.
  On every value this program can produce (multiples of 1/10 reached from
  1.2, 0.8 by steps of 1 and 0.5 under the caps 10 and 2) Python float
  arithmetic and shortest-repr printing agree exactly with rational
  arithmetic and one-decimal-digit printing, so we model them with `ℚ`.
-/

/-! ## Ordered dictionaries (Python dict semantics) -/

/-- Lookup in an insertion-ordered map (`d[k]`, as `Option`). -/
def dGet {α : Type} (d : List (String × α)) (k : String) : Option α :=
  (d.find? (fun p => p.1 == k)).map Prod.snd

/-- Assignment `d[k] = v`: overwrite in place if the key exists,
append at the end otherwise. -/
def dSet {α : Type} (d : List (String × α)) (k : String) (v : α) : List (String × α) :=
  if (d.find? (fun p => p.1 == k)).isSome then
    d.map (fun p => if p.1 == k then (k, v) else p)
  else
    d ++ [(k, v)]

/-- Deletion `del d[k]` (the key is assumed present; on an absent key the
caller models the `KeyError` separately). -/
def dDel {α : Type} (d : List (String × α)) (k : String) : List (String × α) :=
  d.filter (fun p => !(p.1 == k))

/-- `d.update(ps)`: fold assignment over a list of key/value pairs, exactly
as Python's `dict.update` applied to a list of pairs (later pairs win). -/
def dUpdate {α : Type} (d : List (String × α)) (ps : List (String × α)) :
    List (String × α) :=
  ps.foldl (fun a p => dSet a p.1 p.2) d

/-- The value the *last* occurrence of `k` in the pair list `ps` carries,
if any: this is what `d.update(ps)` leaves at key `k` when `k` occurs. -/
def dGetLast {α : Type} (ps : List (String × α)) (k : String) : Option α :=
  (ps.reverse.find? (fun p => p.1 == k)).map Prod.snd

/-! ## Decimal strings (Python `str`/`float` on the produced values) -/

/-- Numeric value of a decimal digit character. -/
def digitVal (c : Char) : Nat := c.toNat - 48

/-- Natural number denoted by a list of decimal digit characters. -/
def natOfDigits (l : List Char) : Nat := l.foldl (fun a c => a * 10 + digitVal c) 0

/-- `float(s)` for the non-negative decimal strings this program produces. -/
def parseDec (s : String) : ℚ :=
  match s.splitOn "." with
  | [i] => (natOfDigits i.toList : ℚ)
  | [i, f] => (natOfDigits i.toList : ℚ) + (natOfDigits f.toList : ℚ) / (10 ^ f.length)
  | _ => 0

/-- `str(x)` for the non-negative float values this program produces; they
are all exact multiples of 1/10, for which Python's shortest-repr printing
gives exactly one digit after the point. -/
def printDec (q : ℚ) : String :=
  let t := (q * 10).num
  toString (t / 10) ++ "." ++ toString (t % 10)

/-! ## Data model -/

/-- A gvgen node (`__node_new` record): id, optional parent (node id),
optional style name, property dict (always carries `label`). -/
structure Node where
  id : Nat
  parent : Option Nat
  style : Option String
  properties : List (String × String)
deriving Repr, DecidableEq

/-- A gvgen link (`__link_new` record).  Endpoints are node ids;
`cl_from_node`/`cl_to_node` are the optional cluster anchor overrides. -/
structure Link where
  from_node : Nat
  to_node : Nat
  style : Option String
  properties : List (String × String)
  cl_from_node : Option Nat
  cl_to_node : Option Nat
deriving Repr, DecidableEq

/-- The `GvGen` object state.  `linkHeap` holds every link record ever
constructed (Python heap objects, in allocation order); `links` is the
`__links` storage list, as heap indices. -/
structure GvGen where
  max_line_width : ℚ
  max_arrow_width : ℚ
  line_factor : ℚ
  arrow_factor : ℚ
  initial_line_width : ℚ
  initial_arrow_width : ℚ
  curid : Nat
  nodes : List Node
  linkHeap : List Link
  links : List Nat
  styles : List (String × List (String × String))
  default_style : List (String × String)
  smart_mode : Bool
deriving Repr, DecidableEq

/-- The state `GvGen.__init__` produces (no legend; the option string only
feeds the dot header, which no claim touches). -/
def initGvGen : GvGen :=
  { max_line_width := 10
    max_arrow_width := 2
    line_factor := 1
    arrow_factor := 1/2
    initial_line_width := 6/5
    initial_arrow_width := 4/5
    curid := 0
    nodes := []
    linkHeap := []
    links := []
    styles := []
    default_style := []
    smart_mode := false }

/-- Placeholder record for out-of-range heap reads (never reached from the
states the claims quantify over). -/
def defaultLink : Link :=
  { from_node := 0, to_node := 0, style := none, properties := [],
    cl_from_node := none, cl_to_node := none }

/-- Dereference a link handle. -/
def heapGet (g : GvGen) (i : Nat) : Link := g.linkHeap.getD i defaultLink

/-- Replace the element at one index of a list. -/
def modifyIdx {α : Type} : List α → Nat → (α → α) → List α
  | [], _, _ => []
  | x :: xs, 0, f => f x :: xs
  | x :: xs, n+1, f => x :: modifyIdx xs n f

/-! ## Property management (`propertyGet` / `propertyAppend` / `propertyRemove`) -/

/-- `propertyGet(node_or_link, key)`: `try: return props[key] except: return None`.
On an entity's property dict this is exactly an `Option`-valued lookup. -/
def propertyGet (props : List (String × String)) (key : String) : Option String :=
  dGet props key

/-- `propertyRemove(node_or_link, key)`: `del props[key]`, which raises
`KeyError` when the key is absent — modelled as `none`. -/
def propertyRemove (props : List (String × String)) (key : String) :
    Option (List (String × String)) :=
  match dGet props key with
  | some _ => some (dDel props key)
  | none => none

/-- `propertyAppend` applied to a link handle (mutates the heap record). -/
def linkPropertyAppend (g : GvGen) (i : Nat) (key v : String) : GvGen :=
  { g with linkHeap :=
      modifyIdx g.linkHeap i (fun l => { l with properties := dSet l.properties key v }) }

/-- `propertyGet` applied through a possibly-`None` link handle, as
`__link_smart` does (`propertyGet(None, k)` hits the bare `except` and
returns `None`). -/
def linkPropertyGetOpt (g : GvGen) (h : Option Nat) (key : String) : Option String :=
  match h with
  | none => none
  | some i => propertyGet (heapGet g i).properties key

/-! ## Node creation (`__node_new` / `newItem`) -/

/-- Result of `__node_new`: either the sentinel `-1` or the created node
(identified by its fresh id, which is how callers address it). -/
inductive NodeResult where
  | duplicate : NodeResult
  | created : Nat → NodeResult
deriving Repr, DecidableEq

/-- `__node_new(name, parent, distinct)`.  With `distinct` set it first scans
*all* existing nodes for a matching `label` and returns the sentinel on a hit
(the scan reads `props['label']`, so it presumes every node still carries its
label, which every node created here does); otherwise it increments the id
counter and appends the new node. -/
def node_new (g : GvGen) (name : String) (parent : Option Nat) (distinct : Bool) :
    GvGen × NodeResult :=
  if distinct && g.nodes.any (fun e => dGet e.properties "label" == some name) then
    (g, NodeResult.duplicate)
  else
    let node : Node :=
      { id := g.curid + 1, parent := parent, style := none,
        properties := [("label", name)] }
    ({ g with curid := g.curid + 1, nodes := g.nodes ++ [node] },
     NodeResult.created (g.curid + 1))

/-- `newItem` is a thin wrapper around `__node_new`. -/
def newItem (g : GvGen) (name : String) (parent : Option Nat) (distinct : Bool) :
    GvGen × NodeResult :=
  node_new g name parent distinct

/-! ## Link creation (`__link_exists` / `__link_smart` / `__link_new`) -/

/-- `__link_exists(from, to)`: first stored link with these endpoints. -/
def link_exists (g : GvGen) (f t : Nat) : Option Nat :=
  g.links.find? (fun i => (heapGet g i).from_node == f && (heapGet g i).to_node == t)

/-- Remove the first element satisfying the predicate (Python
`list.remove`, which compares by value; the element is present in every
reachable call). -/
def eraseFirstP : List Nat → (Nat → Bool) → List Nat
  | [], _ => []
  | x :: xs, p => if p x then xs else x :: eraseFirstP xs p

/-- Python's truthiness on an optional string (`if pw:`):
`None` and `""` are falsy. -/
def truthy : Option String → Option String
  | some s => if s.isEmpty then none else some s
  | none => none

/-- `__link_smart(link)` where `h` is the handle of the freshly constructed
link (already on the heap, not yet in storage).  Mirrors the source:
`linkfrom`/`linkto` are looked up first; in smart mode a reverse link is
removed from storage and the new link gets `dir=both`; penwidth and
arrowsize of the already-stored forward link are thickened (initial values
go onto the new link when there is no stored forward value); finally the new
link is appended to storage only when no forward link pre-existed. -/
def link_smart (g : GvGen) (h : Nat) : GvGen :=
  let l := heapGet g h
  let linkfrom := link_exists g l.from_node l.to_node
  let linkto := link_exists g l.to_node l.from_node
  let gc :=
    if g.smart_mode then
      let ga :=
        match linkto with
        | some j =>
          let target := heapGet g j
          let g' := { g with links := eraseFirstP g.links (fun i => decide (heapGet g i = target)) }
          linkPropertyAppend g' h "dir" "both"
        | none => g
      let gb :=
        match linkfrom with
        | none =>
          -- propertyGet(None, "penwidth") returns None: initial width onto the new link
          linkPropertyAppend ga h "penwidth" (printDec ga.initial_line_width)
        | some j =>
          match truthy (propertyGet (heapGet ga j).properties "penwidth") with
          | some pws =>
            let pw := parseDec pws + ga.line_factor
            if pw < ga.max_line_width then
              linkPropertyAppend ga j "penwidth" (printDec pw)
            else ga
          | none => linkPropertyAppend ga h "penwidth" (printDec ga.initial_line_width)
      match linkfrom with
      | none =>
        linkPropertyAppend gb h "arrowsize" (printDec gb.initial_arrow_width)
      | some j =>
        match truthy (propertyGet (heapGet gb j).properties "arrowsize") with
        | some aws =>
          let aw := parseDec aws
          if aw < gb.max_arrow_width then
            linkPropertyAppend gb j "arrowsize" (printDec (aw + gb.arrow_factor))
          else gb
        | none => linkPropertyAppend gb h "arrowsize" (printDec gb.initial_arrow_width)
    else g
  if linkfrom.isNone then { gc with links := gc.links ++ [h] } else gc

/-- `__link_new(from, to, label, cl_from, cl_to)`: constructs the link record
(label only when non-empty, Python truthiness), hands it to `__link_smart`,
and returns it — always the newly constructed record, stored or not. -/
def link_new (g : GvGen) (from_node to_node : Nat) (label : Option String)
    (cl_from_node cl_to_node : Option Nat) : GvGen × Nat :=
  let props : List (String × String) :=
    match label with
    | some s => if s.isEmpty then [] else [("label", s)]
    | none => []
  let link : Link :=
    { from_node := from_node, to_node := to_node, style := none,
      properties := props, cl_from_node := cl_from_node, cl_to_node := cl_to_node }
  let h := g.linkHeap.length
  let g1 : GvGen := { g with linkHeap := g.linkHeap ++ [link] }
  (link_smart g1 h, h)

/-- `newLink` is a thin wrapper around `__link_new`. -/
def newLink (g : GvGen) (src dst : Nat) (label : Option String)
    (cl_src cl_dst : Option Nat) : GvGen × Nat :=
  link_new g src dst label cl_src cl_dst

/-! ## Styles -/

/-- `styleAppend(stylename, key, val)`. -/
def styleAppend (g : GvGen) (stylename key val : String) : GvGen :=
  match dGet g.styles stylename with
  | some l => { g with styles := dSet g.styles stylename (l ++ [(key, val)]) }
  | none => { g with styles := dSet g.styles stylename [(key, val)] }

/-- `styleDefaultAppend(key, val)`. -/
def styleDefaultAppend (g : GvGen) (key val : String) : GvGen :=
  { g with default_style := g.default_style ++ [(key, val)] }

/-! ## Children lookup (`__has_children`) -/

/-- `__has_children(parent)`: the nodes whose parent is the given node,
in creation order. -/
def childrenOf (g : GvGen) (parentId : Nat) : List Node :=
  g.nodes.filter (fun e => e.parent == some parentId)

/-! ## Effective properties (`propertiesAsStringGet` / `propertiesLinkAsStringGet`) -/

/-- The merged attribute dict `allProps` that `propertiesAsStringGet` builds
for a node: start empty, `update` with the default style, then with the named
style when one is applied (`styles[stylename]` raises `KeyError` on an
unregistered name, modelled as `none`; an empty style name is falsy and
skipped), then with the explicit properties passed in (the serializer passes
`node['properties']`). -/
def nodeAllProps (g : GvGen) (node : Node) (props : List (String × String)) :
    Option (List (String × String)) :=
  let a := dUpdate [] g.default_style
  match node.style with
  | some sn =>
    if sn.isEmpty then some (dUpdate a props)
    else
      match dGet g.styles sn with
      | some st => some (dUpdate (dUpdate a st) props)
      | none => none
  | none => some (dUpdate a props)

/-- The merged attribute dict that `propertiesLinkAsStringGet` builds for a
link: start empty, `update` with the named style when applied, then with the
link's explicit properties.  (Unlike the node path, the default style is
never consulted.) -/
def linkAllProps (g : GvGen) (l : Link) : Option (List (String × String)) :=
  let props : List (String × String) := []
  match l.style with
  | some sn =>
    if sn.isEmpty then some (dUpdate props l.properties)
    else
      match dGet g.styles sn with
      | some st => some (dUpdate (dUpdate props st) l.properties)
      | none => none
  | none => some (dUpdate props l.properties)

/-- One `key="value"` attribute item. -/
def kvStr (p : String × String) : String := p.1 ++ "=\"" ++ p.2 ++ "\""

/-- `propertiesLinkAsStringGet(link)`: comma-joined `key="value"` items of
the merged link attributes (empty string when there are none). -/
def propertiesLinkAsStringGet (g : GvGen) (l : Link) : Option String :=
  match linkAllProps g l with
  | none => none
  | some props =>
    if props.isEmpty then some ""
    else some (String.intercalate "," (props.map kvStr))

/-! ## Per-link serialization (`dotLinks`) -/

/-- The source endpoint id emitted for a link (`src` in `dotLinks`): when the
from-node has children, the override anchor if set, else the cluster's first
child in creation order; otherwise the from-node itself. -/
def linkSrcId (g : GvGen) (l : Link) : Nat :=
  match childrenOf g l.from_node with
  | [] => l.from_node
  | c :: _ =>
    match l.cl_from_node with
    | some cid => cid
    | none => c.id

/-- `cluster_src` in `dotLinks`: the source cluster id when the from-node has
children (node ids start at 1, so Python's empty-string/offset truthiness is
an `Option` here). -/
def linkClusterSrc (g : GvGen) (l : Link) : Option Nat :=
  match childrenOf g l.from_node with
  | [] => none
  | _ :: _ => some l.from_node

/-- The destination endpoint id emitted for a link (`dst` in `dotLinks`). -/
def linkDstId (g : GvGen) (l : Link) : Nat :=
  match childrenOf g l.to_node with
  | [] => l.to_node
  | c :: _ =>
    match l.cl_to_node with
    | some cid => cid
    | none => c.id

/-- `cluster_dst` in `dotLinks`. -/
def linkClusterDst (g : GvGen) (l : Link) : Option Nat :=
  match childrenOf g l.to_node with
  | [] => none
  | _ :: _ => some l.to_node

/-- The final attribute string of an emitted edge: the merged link
properties, plus `ltail=cluster<id>` / `lhead=cluster<id>` appended
(comma-separated) when the corresponding endpoint is a cluster. -/
def linkPropsFull (g : GvGen) (l : Link) : Option String :=
  match propertiesLinkAsStringGet g l with
  | none => none
  | some props =>
    let props :=
      match linkClusterSrc g l with
      | some cid =>
        (if props.isEmpty then props else props ++ ",") ++ "ltail=cluster" ++ toString cid
      | none => props
    let props :=
      match linkClusterDst g l with
      | some cid =>
        (if props.isEmpty then props else props ++ ",") ++ "lhead=cluster" ++ toString cid
      | none => props
    some props

/-- The full edge statement `dotLinks` writes for one stored link:
`"   node<src>->node<dst>"`, the bracketed attribute string when non-empty,
and `";\n"`. -/
def renderLink (g : GvGen) (l : Link) : Option String :=
  match linkPropsFull g l with
  | none => none
  | some props =>
    some ("   " ++ "node" ++ toString (linkSrcId g l) ++ "->node" ++ toString (linkDstId g l)
      ++ (if props.isEmpty then "" else " [" ++ props ++ "]") ++ ";\n")

/-- The link section of `dot()`: for each node in creation order, the edge
statements of its outgoing stored links, in storage order. -/
def dotLinksOutput (g : GvGen) : List (Option String) :=
  (g.nodes.map (fun e =>
    (g.links.filter (fun i => (heapGet g i).from_node == e.id)).map
      (fun i => renderLink g (heapGet g i)))).flatten

/-! ## Concrete scenarios used by the claims -/

/-- A fresh graph with two leaf nodes `A` (id 1) and `B` (id 2),
smart mode left disabled (the default). -/
def twoNodeG : GvGen :=
  (node_new (node_new initGvGen "A" none false).1 "B" none false).1

/-- The same two-node graph with smart mode enabled. -/
def twoNodeSmartG : GvGen := { twoNodeG with smart_mode := true }

/-- `n` successive `createLink(A, B)` calls (nodes 1 → 2) on the smart
two-node graph. -/
def repLink : Nat → GvGen
  | 0 => twoNodeSmartG
  | n+1 => (link_new (repLink n) 1 2 none none none).1

/-- A fresh graph with smart mode enabled and no nodes or links. -/
def freshSmart : GvGen := { initGvGen with smart_mode := true }

/-- The stored penwidth value (as a rational) after the `(n+1)`-th repeated
`createLink(A, B)` in smart mode with the default step 1 and cap 10:
`__link_smart` increments and then writes back only while the incremented
value is still below the cap. -/
def pwVal : Nat → ℚ
  | 0 => 6/5
  | n+1 => if pwVal n + 1 < 10 then pwVal n + 1 else pwVal n

/-- The stored arrowsize value after the `(n+1)`-th repeated
`createLink(A, B)` in smart mode with the default step 1/2 and cap 2:
`__link_smart` increments whenever the *current* value is below the cap
(so the stored value can end up above it). -/
def awVal : Nat → ℚ
  | 0 => 4/5
  | n+1 => if awVal n < 2 then awVal n + 1/2 else awVal n

/-- Every value `pwVal` takes. -/
def pwSet : List ℚ := [6/5, 11/5, 16/5, 21/5, 26/5, 31/5, 36/5, 41/5, 46/5]

/-- Every value `awVal` takes. -/
def awSet : List ℚ := [4/5, 13/10, 9/5, 23/10]

/-- The single stored link of the repeated-creation scenario after `n+1`
calls: endpoints 1 → 2 and the evolving visual-weight properties. -/
def mainRec (p a : ℚ) : Link :=
  { from_node := 1, to_node := 2, style := none,
    properties := [("penwidth", printDec p), ("arrowsize", printDec a)],
    cl_from_node := none, cl_to_node := none }

/-- The bare records the later repeated calls construct and throw away
(they are returned but never stored, and `__link_smart` writes the width
increments onto the stored link, not onto them). -/
def plainRec : Link :=
  { from_node := 1, to_node := 2, style := none, properties := [],
    cl_from_node := none, cl_to_node := none }

/-- Closed form of the repeated-creation state after `n+1` calls. -/
def repState (n : Nat) : GvGen :=
  { twoNodeSmartG with
    linkHeap := mainRec (pwVal n) (awVal n) :: List.replicate n plainRec,
    links := [0] }

/-! ## Spec-side definition for the property-precedence comparison -/

/-- The spec's `effectiveProperties` (§4.2), written from the spec's words
for comparison with the code's merging: compose, later layers winning, the
default style pairs, then the named-style pairs when a style is applied
(an unregistered name is a caller contract violation, `none` here), then
the entity's explicit properties. -/
def specEffectiveProps (g : GvGen) (style : Option String)
    (props : List (String × String)) : Option (List (String × String)) :=
  let a := dUpdate [] g.default_style
  match style with
  | some sn =>
    match dGet g.styles sn with
    | some st => some (dUpdate (dUpdate a st) props)
    | none => none
  | none => some (dUpdate a props)

/-- The named-style layer an entity contributes to the merged view: the
registered pair list when a (non-falsy) style name is applied, else nothing. -/
def namedStyleLayer (g : GvGen) (style : Option String) : List (String × String) :=
  match style with
  | some sn => if sn.isEmpty then [] else (dGet g.styles sn).getD []
  | none => []

/-! ## Further concrete graphs used as witnesses and counterexamples -/

/-- A graph whose default style sets `color=blue` and that has two leaf
nodes; no named styles. -/
def defaultStyledG : GvGen :=
  { twoNodeG with default_style := [("color", "blue")] }

/-- A plain stored-shape link `1 → 2` with no style and no properties. -/
def plainLink12 : Link :=
  { from_node := 1, to_node := 2, style := none, properties := [],
    cl_from_node := none, cl_to_node := none }

/-- The spec's §8 precedence example: default style `color=blue`, named
style `s = \x7bcolor: red, shape: box\x7d`. -/
def precedenceG : GvGen :=
  { initGvGen with
    default_style := [("color", "blue")],
    styles := [("s", [("color", "red"), ("shape", "box")])] }

/-- A node with style `s` applied and the explicit override `color=green`. -/
def precedenceNode : Node :=
  { id := 1, parent := none, style := some "s",
    properties := [("label", "n"), ("color", "green")] }

/-- Witness graph for the cluster-endpoint rendering: cluster `1` with
children `2`, `3` (in creation order) and root leaf `4`. -/
def clusterG : GvGen :=
  { initGvGen with
    curid := 4
    nodes :=
      [ { id := 1, parent := none, style := none, properties := [("label", "C1")] },
        { id := 2, parent := some 1, style := none, properties := [("label", "n1")] },
        { id := 3, parent := some 1, style := none, properties := [("label", "n2")] },
        { id := 4, parent := none, style := none, properties := [("label", "n3")] } ] }

/-- A link from cluster `1` to leaf `4` with no anchor overrides. -/
def clusterLink : Link :=
  { from_node := 1, to_node := 4, style := none, properties := [],
    cl_from_node := none, cl_to_node := none }

/-- Witness graph for the distinct-dedup check: two nodes with different
parents, the second labelled `X`. -/
def dedupG : GvGen :=
  { initGvGen with
    curid := 2
    nodes :=
      [ { id := 1, parent := none, style := none, properties := [("label", "P")] },
        { id := 2, parent := some 1, style := none, properties := [("label", "X")] } ] }

/-- Witness graph for the get/remove asymmetry: one registered style that
sets `color=red`. -/
def styledG : GvGen :=
  { initGvGen with styles := [("s", [("color", "red")])] }

/-- A link carrying style `s` but no explicit `color`. -/
def styledLink : Link :=
  { from_node := 1, to_node := 2, style := some "s",
    properties := [("label", "e")], cl_from_node := none, cl_to_node := none }

/-- A `createNode` request: label, parent, distinct flag. -/
def runCreates (g : GvGen) (reqs : List (String × Option Nat × Bool)) : GvGen :=
  reqs.foldl (fun a r => (node_new a r.1 r.2.1 r.2.2).1) g


/-! ## Dictionary lemmas -/

theorem optMap_or {α β : Type} (f : α → β) (x y : Option α) :
    (x.or y).map f = (x.map f).or (y.map f) := by
  cases x <;> rfl

theorem dGet_nil {α : Type} (k : String) : dGet ([] : List (String × α)) k = none := rfl

theorem dGetLast_nil {α : Type} (k : String) : dGetLast ([] : List (String × α)) k = none := rfl

theorem dGet_cons {α : Type} (a : String) (b : α) (d : List (String × α)) (k : String) :
    dGet ((a, b) :: d) k = if (a == k) = true then some b else dGet d k := by
  by_cases h : (a == k) = true
  · simp [dGet, List.find?_cons, h]
  · simp [dGet, List.find?_cons, h]

theorem dGetLast_cons {α : Type} (a : String) (b : α) (d : List (String × α)) (k : String) :
    dGetLast ((a, b) :: d) k
      = (dGetLast d k).or (if (a == k) = true then some b else none) := by
  by_cases h : (a == k) = true
  · simp [dGetLast, List.find?_append, optMap_or, List.find?_cons, h]
  · simp [dGetLast, List.find?_append, optMap_or, List.find?_cons, h]

theorem dGet_map_ne {α : Type} (d : List (String × α)) (k0 : String) (v0 : α) (k : String)
    (hne : (k0 == k) = false) :
    dGet (d.map (fun p => if p.1 == k0 then (k0, v0) else p)) k = dGet d k := by
  induction d with
  | nil => rfl
  | cons p d ih =>
    obtain ⟨a, b⟩ := p
    simp only [List.map_cons]
    by_cases ha : (a == k0) = true
    · have hak : a = k0 := by simpa using ha
      subst hak
      rw [if_pos (by simp)]
      rw [dGet_cons, dGet_cons, if_neg (by simp [hne]), if_neg (by simp [hne]), ih]
    · rw [if_neg (by simpa using ha)]
      rw [dGet_cons, dGet_cons, ih]

theorem dGet_map_self {α : Type} (d : List (String × α)) (k0 : String) (v0 : α)
    (hk : (d.find? (fun p => p.1 == k0)).isSome = true) :
    dGet (d.map (fun p => if p.1 == k0 then (k0, v0) else p)) k0 = some v0 := by
  induction d with
  | nil => simp at hk
  | cons p d ih =>
    obtain ⟨a, b⟩ := p
    simp only [List.map_cons]
    by_cases ha : (a == k0) = true
    · rw [if_pos (by simpa using ha)]
      rw [dGet_cons, if_pos (by simp)]
    · rw [if_neg (by simpa using ha)]
      rw [dGet_cons, if_neg ha]
      apply ih
      simpa [List.find?_cons, ha] using hk

theorem dGet_dSet {α : Type} (d : List (String × α)) (k0 : String) (v0 : α) (k : String) :
    dGet (dSet d k0 v0) k = if (k0 == k) = true then some v0 else dGet d k := by
  unfold dSet
  split
  next hmem =>
    by_cases hk : (k0 == k) = true
    · have : k0 = k := by simpa using hk
      subst this
      rw [if_pos hk, dGet_map_self d k0 v0 hmem]
    · rw [if_neg hk, dGet_map_ne d k0 v0 k (by simpa using hk)]
  next hmem =>
    by_cases hk : (k0 == k) = true
    · have hkk : k0 = k := by simpa using hk
      subst hkk
      have hnone : List.find? (fun p => p.1 == k0) d = none := by
        cases h : List.find? (fun p => p.1 == k0) d with
        | none => rfl
        | some p => rw [h] at hmem; simp at hmem
      simp [dGet, List.find?_append, hnone, List.find?_cons]
    · rw [if_neg hk]
      simp only [dGet, List.find?_append, List.find?_cons, List.find?_nil, hk]
      cases h : List.find? (fun p => p.1 == k) d <;> rfl

theorem dGet_dUpdate {α : Type} (d : List (String × α)) (ps : List (String × α)) (k : String) :
    dGet (dUpdate d ps) k = (dGetLast ps k).or (dGet d k) := by
  induction ps generalizing d with
  | nil => simp [dUpdate, dGetLast_nil]
  | cons p ps ih =>
    obtain ⟨a, b⟩ := p
    show dGet (dUpdate (dSet d a b) ps) k = _
    rw [ih, dGetLast_cons, dGet_dSet, Option.or_assoc]
    congr 1
    by_cases h : (a == k) = true <;> simp [h]

theorem dGet_eq_none_iff {α : Type} (d : List (String × α)) (k : String) :
    dGet d k = none ↔ dGetLast d k = none := by
  induction d with
  | nil => simp [dGet_nil, dGetLast_nil]
  | cons p d ih =>
    obtain ⟨a, b⟩ := p
    rw [dGet_cons, dGetLast_cons]
    by_cases h : (a == k) = true
    · rw [if_pos h, if_pos h]
      cases hd : dGetLast d k <;> simp
    · rw [if_neg h, if_neg h]
      cases hd : dGetLast d k <;> simp [ih, hd]

/-- Key-level semantics of the node-side merged view: explicit properties
win over the named style, which wins over the default style. -/
theorem nodeAllProps_lookup (g : GvGen) (node : Node) (props m : List (String × String))
    (hsn : node.style ≠ some "") (hm : nodeAllProps g node props = some m) (key : String) :
    dGet m key =
      ((dGetLast props key).or
        ((dGetLast (namedStyleLayer g node.style) key).or
          (dGetLast g.default_style key))) := by
  unfold nodeAllProps at hm
  cases hsty : node.style with
  | none =>
    rw [hsty] at hm
    simp only [Option.some_inj] at hm
    subst hm
    rw [dGet_dUpdate, dGet_dUpdate, dGet_nil]
    simp [namedStyleLayer, dGetLast_nil]
  | some sn =>
    rw [hsty] at hm
    have hne : sn.isEmpty = false := by
      cases hs : sn.isEmpty
      · rfl
      · exact absurd (by rw [hsty, (String.isEmpty_iff sn).mp hs]) hsn
    simp only [hne, Bool.false_eq_true, if_false] at hm
    cases hst : dGet g.styles sn with
    | none => rw [hst] at hm; cases hm
    | some st =>
      rw [hst] at hm
      simp only [Option.some_inj] at hm
      subst hm
      rw [dGet_dUpdate, dGet_dUpdate, dGet_dUpdate, dGet_nil]
      simp [namedStyleLayer, hne, hst]

/-- Key-level semantics of the link-side merged view: explicit properties
win over the named style; the default style never contributes. -/
theorem linkAllProps_lookup (g : GvGen) (l : Link) (m : List (String × String))
    (hm : linkAllProps g l = some m) (key : String) :
    dGet m key =
      ((dGetLast l.properties key).or
        (dGetLast (namedStyleLayer g l.style) key)) := by
  unfold linkAllProps at hm
  cases hsty : l.style with
  | none =>
    rw [hsty] at hm
    simp only [Option.some_inj] at hm
    subst hm
    rw [dGet_dUpdate, dGet_nil]
    simp [namedStyleLayer, dGetLast_nil]
  | some sn =>
    rw [hsty] at hm
    cases hse : sn.isEmpty with
    | true =>
      simp only [hse, if_true, Option.some_inj] at hm
      subst hm
      rw [dGet_dUpdate, dGet_nil]
      simp [namedStyleLayer, hse, dGetLast_nil]
    | false =>
      simp only [hse, Bool.false_eq_true, if_false] at hm
      cases hst : dGet g.styles sn with
      | none => rw [hst] at hm; cases hm
      | some st =>
        rw [hst] at hm
        simp only [Option.some_inj] at hm
        subst hm
        rw [dGet_dUpdate, dGet_dUpdate, dGet_nil]
        simp [namedStyleLayer, hse, hst]

/-- On a non-falsy style name the node-side merge agrees with the spec's
three-layer `effectiveProperties`. -/
theorem nodeAllProps_eq_spec (g : GvGen) (node : Node) (props : List (String × String))
    (hsn : node.style ≠ some "") :
    nodeAllProps g node props = specEffectiveProps g node.style props := by
  unfold nodeAllProps specEffectiveProps
  cases hsty : node.style with
  | none => rfl
  | some sn =>
    have hne : sn.isEmpty = false := by
      cases hs : sn.isEmpty
      · rfl
      · exact absurd (by rw [hsty, (String.isEmpty_iff sn).mp hs]) hsn
    simp only [hne, Bool.false_eq_true, if_false]

/-! ## Claim C3 -/

/-- C3 (counterexample): the three-layer composition does *not* describe
links.  In a graph whose default style sets `color=blue`, a plain stored
link merges to the empty mapping — the spec-side `effectiveProperties`
would contain `color=blue` — and the serializer emits no attributes for
it. -/
theorem C3_counterexample :
    linkAllProps defaultStyledG plainLink12
        ≠ specEffectiveProps defaultStyledG plainLink12.style plainLink12.properties ∧
    linkAllProps defaultStyledG plainLink12 = some [] ∧
    specEffectiveProps defaultStyledG plainLink12.style plainLink12.properties
        = some [("color", "blue")] ∧
    propertiesLinkAsStringGet defaultStyledG plainLink12 = some "" := by
  refine ⟨?_, ?_, ?_, ?_⟩ <;> with_unfolding_all decide

/-- C3 (amended): for *nodes* the serializer's merged mapping is composed,
later layers winning, of the default style, then the named style when one
is applied, then the explicit properties (and equals the spec's
`effectiveProperties`); for *links* the default-style layer is skipped and
only the named style and the explicit properties are composed.  Keys
absent from all contributing layers are absent from the result. -/
theorem C3_amended_layering (g : GvGen) :
    (∀ (node : Node) (props m : List (String × String)),
        node.style ≠ some "" →
        nodeAllProps g node props = some m →
        nodeAllProps g node props = specEffectiveProps g node.style props ∧
        ∀ key, dGet m key =
          ((dGetLast props key).or
            ((dGetLast (namedStyleLayer g node.style) key).or
              (dGetLast g.default_style key)))) ∧
    (∀ (l : Link) (m : List (String × String)),
        linkAllProps g l = some m →
        ∀ key, dGet m key =
          ((dGetLast l.properties key).or
            (dGetLast (namedStyleLayer g l.style) key))) := by
  constructor
  · intro node props m hsn hm
    exact ⟨nodeAllProps_eq_spec g node props hsn,
           fun key => nodeAllProps_lookup g node props m hsn hm key⟩
  · intro l m hm
    exact fun key => linkAllProps_lookup g l m hm key

/-- C3 (witness): the spec's §8 precedence example evaluated through the
amended theorem — default `color=blue`, style `s = color-red/shape-box`
applied, explicit `color=green`: the merged node mapping yields
`color=green`, `shape=box`, and no `fontsize`. -/
theorem C3_witness :
    dGet [("color", "green"), ("shape", "box"), ("label", "n")] "color" = some "green" ∧
    dGet [("color", "green"), ("shape", "box"), ("label", "n")] "shape" = some "box" ∧
    dGet [("color", "green"), ("shape", "box"), ("label", "n")] "fontsize" = none := by
  have h := (C3_amended_layering precedenceG).1 precedenceNode precedenceNode.properties
      [("color", "green"), ("shape", "box"), ("label", "n")]
      (by decide) (by with_unfolding_all decide)
  refine ⟨?_, ?_, ?_⟩
  · rw [h.2 "color"]; with_unfolding_all decide
  · rw [h.2 "shape"]; with_unfolding_all decide
  · rw [h.2 "fontsize"]; with_unfolding_all decide

/-! ## Claim C8 -/

/-- C8: on a key absent from an entity's explicit properties, `propertyGet`
returns `none` while `propertyRemove` fails (`KeyError`); and the merged
view at that key is exactly the named-style layer, i.e. `propertyGet` never
consults styles. -/
theorem C8_get_tolerant_remove_strict (g : GvGen) (l : Link) (key : String)
    (habs : dGet l.properties key = none) :
    propertyGet l.properties key = none ∧
    propertyRemove l.properties key = none ∧
    (∀ m, linkAllProps g l = some m →
        dGet m key = dGetLast (namedStyleLayer g l.style) key) := by
  refine ⟨habs, ?_, ?_⟩
  · unfold propertyRemove
    rw [habs]
  · intro m hm
    rw [linkAllProps_lookup g l m hm key]
    rw [(dGet_eq_none_iff l.properties key).mp habs]
    rfl

/-- C8 (witness): a link styled with `s = color-red` and no explicit
`color`: `propertyGet` is `none`, `propertyRemove` fails, yet the merged
serialization view carries `color=red` from the style layer. -/
theorem C8_witness :
    propertyGet styledLink.properties "color" = none ∧
    propertyRemove styledLink.properties "color" = none ∧
    dGet [("color", "red"), ("label", "e")] "color" = some "red" := by
  have h := C8_get_tolerant_remove_strict styledG styledLink "color" (by decide)
  refine ⟨h.1, h.2.1, ?_⟩
  rw [h.2.2 [("color", "red"), ("label", "e")] (by with_unfolding_all decide)]
  with_unfolding_all decide

/-! ## Claim C5 -/

/-- C5: three `createLink(A, B)` calls in smart mode with the default step
1, initial width 1.2 and cap 10 leave exactly one stored link (no parallel
edges), from node 1 to node 2, whose penwidth property is `"3.2"`. -/
theorem C5_three_links_penwidth :
    (repLink 3).links = [0] ∧
    (heapGet (repLink 3) 0).from_node = 1 ∧
    (heapGet (repLink 3) 0).to_node = 2 ∧
    dGet (heapGet (repLink 3) 0).properties "penwidth" = some "3.2" ∧
    twoNodeSmartG.line_factor = 1 ∧
    twoNodeSmartG.initial_line_width = 6/5 ∧
    twoNodeSmartG.max_line_width = 10 := by
  refine ⟨?_, ?_, ?_, ?_, ?_, ?_, ?_⟩ <;> with_unfolding_all decide

/-! ## Claim C1 -/

/-- C1 (counterexample): with smart mode disabled (the default), two
successive `createLink` calls with the same endpoints leave *one* stored
link, not two — the `if not linkfrom` append guard runs outside the
smart-mode block. -/
theorem C1_counterexample :
    twoNodeG.smart_mode = false ∧
    ((link_new (link_new twoNodeG 1 2 none none none).1 1 2 none none none).1).links.length = 1 ∧
    ((link_new (link_new twoNodeG 1 2 none none none).1 1 2 none none none).1).links.length ≠ 2 := by
  refine ⟨?_, ?_, ?_⟩ <;> with_unfolding_all decide

/-- C1 (amended): with smart mode disabled, `createLink` appends the new
link only when no link with the same endpoints is already stored, so two
successive `createLink(A, B)` calls on a fresh graph store exactly one
link (while both records are constructed on the heap). -/
theorem C1_amended_no_duplicate_append (A B : Nat) (label1 label2 : Option String)
    (cf1 ct1 cf2 ct2 : Option Nat) :
    (link_new initGvGen A B label1 cf1 ct1).1.links = [0] ∧
    (link_new (link_new initGvGen A B label1 cf1 ct1).1 A B label2 cf2 ct2).1.links = [0] ∧
    (link_new (link_new initGvGen A B label1 cf1 ct1).1 A B label2 cf2 ct2).1.linkHeap.length = 2 := by
  refine ⟨?_, ?_, ?_⟩ <;>
    simp [link_new, link_smart, link_exists, initGvGen, heapGet]

/-! ## Claim C7 -/

/-- C7: `createNode` with `distinct` set returns the DUPLICATE sentinel —
without creating a node or touching the state — whenever *any* existing
node (whatever its parent) carries the same label; with a fresh label it
creates and returns a new node.  (The scan reads each node's `label`, so
every node is assumed to still carry one, as every node created by
`__node_new` does.) -/
theorem C7_distinct_dedup (g : GvGen) (name : String) (parent : Option Nat)
    (hlab : ∀ n ∈ g.nodes, (dGet n.properties "label").isSome = true) :
    ((∃ n ∈ g.nodes, dGet n.properties "label" = some name) →
        node_new g name parent true = (g, NodeResult.duplicate)) ∧
    ((∀ n ∈ g.nodes, dGet n.properties "label" ≠ some name) →
        node_new g name parent true
          = ({ g with
                curid := g.curid + 1
                nodes := g.nodes ++
                  [{ id := g.curid + 1, parent := parent, style := none,
                     properties := [("label", name)] }] },
             NodeResult.created (g.curid + 1))) := by
  constructor
  · rintro ⟨n, hn, hlabel⟩
    unfold node_new
    rw [if_pos]
    rw [Bool.true_and, List.any_eq_true]
    exact ⟨n, hn, by simp [hlabel]⟩
  · intro hnone
    unfold node_new
    rw [if_neg]
    rw [Bool.true_and, List.any_eq_true]
    rintro ⟨n, hn, hlabel⟩
    exact hnone n hn (by simpa using hlabel)

/-- C7 (witness): a graph with nodes labelled `P` (a root) and `X` (a child
of `P`): `createNode("X", distinct)` with a *different* parent still
returns the sentinel and leaves the graph unchanged. -/
theorem C7_witness :
    node_new dedupG "X" none true = (dedupG, NodeResult.duplicate) :=
  (C7_distinct_dedup dedupG "X" none (by decide)).1
    ⟨{ id := 2, parent := some 1, style := none, properties := [("label", "X")] },
     by decide, by decide⟩

/-! ## Claim C2 -/

/-- C2 (counterexample): after `createLink(A, B)` then `createLink(B, A)`
in smart mode (nodes 1, 2), the single stored link is the *new `B → A`*
record — the pre-existing `A → B` link has been removed, so no stored link
`A → B` exists, contrary to the claim. -/
theorem C2_counterexample :
    ((link_new (link_new twoNodeSmartG 1 2 none none none).1 2 1 none none none).1).links = [1] ∧
    link_exists ((link_new (link_new twoNodeSmartG 1 2 none none none).1 2 1 none none none).1) 1 2
      = none ∧
    (heapGet ((link_new (link_new twoNodeSmartG 1 2 none none none).1 2 1 none none none).1) 1).from_node
      = 2 ∧
    dGet (heapGet ((link_new (link_new twoNodeSmartG 1 2 none none none).1 2 1 none none none).1) 1).properties
      "dir" = some "both" := by
  refine ⟨?_, ?_, ?_, ?_⟩ <;> with_unfolding_all decide

/-- C2 (amended): in smart mode, creating `A → B` and then `B → A` leaves
exactly one stored link, namely the *new `B → A`* link carrying
`dir=both`; the original `A → B` link is removed from storage. -/
theorem C2_amended_reverse_merge (A B : Nat) (hAB : A ≠ B) :
    ((link_new (link_new freshSmart A B none none none).1 B A none none none).1).links = [1] ∧
    (heapGet ((link_new (link_new freshSmart A B none none none).1 B A none none none).1) 1).from_node
      = B ∧
    (heapGet ((link_new (link_new freshSmart A B none none none).1 B A none none none).1) 1).to_node
      = A ∧
    dGet (heapGet ((link_new (link_new freshSmart A B none none none).1 B A none none none).1) 1).properties
      "dir" = some "both" ∧
    link_exists ((link_new (link_new freshSmart A B none none none).1 B A none none none).1) A B
      = none := by
  have hab : (A == B) = false := by simpa using hAB
  have hba : (B == A) = false := by simpa using (Ne.symm hAB)
  refine ⟨?_, ?_, ?_, ?_, ?_⟩ <;>
    simp [link_new, link_smart, link_exists, freshSmart, initGvGen, heapGet,
      linkPropertyAppend, modifyIdx, eraseFirstP, hab, hba, dGet_dSet, propertyGet, truthy]

/-- C2 (witness): the amended statement evaluated at nodes 3 and 7. -/
theorem C2_witness :
    ((link_new (link_new freshSmart 3 7 none none none).1 7 3 none none none).1).links = [1] ∧
    (heapGet ((link_new (link_new freshSmart 3 7 none none none).1 7 3 none none none).1) 1).from_node
      = 7 := by
  have h := C2_amended_reverse_merge 3 7 (by decide)
  exact ⟨h.1, h.2.1⟩

/-! ## Claim C9 -/

/-- The id-allocation invariant: every stored node id is at most the
counter, and ids strictly increase along the node list.  `__node_new`
preserves it (the duplicate branch leaves the state unchanged; the create
branch appends the node with the freshly incremented counter). -/
theorem runCreates_inv (reqs : List (String × Option Nat × Bool)) (g : GvGen)
    (h1 : ∀ n ∈ g.nodes, n.id ≤ g.curid)
    (h2 : List.Pairwise (fun a b => a.id < b.id) g.nodes) :
    (∀ n ∈ (runCreates g reqs).nodes, n.id ≤ (runCreates g reqs).curid) ∧
    List.Pairwise (fun a b => a.id < b.id) (runCreates g reqs).nodes := by
  induction reqs generalizing g with
  | nil => exact ⟨h1, h2⟩
  | cons r reqs ih =>
    show (∀ n ∈ (runCreates (node_new g r.1 r.2.1 r.2.2).1 reqs).nodes, _) ∧ _
    apply ih
    · unfold node_new
      split
      · exact h1
      · intro n hn
        simp only [List.mem_append, List.mem_singleton] at hn
        rcases hn with hn | hn
        · exact Nat.le_succ_of_le (h1 n hn)
        · subst hn; exact Nat.le_refl _
    · unfold node_new
      split
      · exact h2
      · rw [List.pairwise_append]
        refine ⟨h2, List.pairwise_singleton _ _, ?_⟩
        intro a ha b hb
        simp only [List.mem_singleton] at hb
        subst hb
        exact Nat.lt_succ_of_le (h1 a ha)

/-- C9: over any sequence of `createNode` calls on one fresh graph
instance, the stored node ids are strictly increasing in creation order
(and hence unique). -/
theorem C9_ids_strictly_increasing (reqs : List (String × Option Nat × Bool)) :
    List.Pairwise (fun a b => a < b) ((runCreates initGvGen reqs).nodes.map Node.id) := by
  have h := runCreates_inv reqs initGvGen (by simp [initGvGen]) (by simp [initGvGen])
  exact List.pairwise_map.mpr h.2

/-! ## Claim C6 -/

/-- C6: when a link's from-node has children, the emitted source endpoint
is the `cl_from_node` override if set and otherwise the cluster's first
child in creation order, and the emitted edge statement carries an
`ltail=cluster<id>` attribute naming the source cluster; the to-node /
`cl_to_node` / `lhead` handling is symmetric; a leaf endpoint is emitted
as that node's own id with no extra attribute. -/
theorem C6_cluster_endpoints (g : GvGen) (l : Link) :
    (∀ c cs, childrenOf g l.from_node = c :: cs →
        linkClusterSrc g l = some l.from_node ∧
        (l.cl_from_node = none → linkSrcId g l = c.id) ∧
        (∀ o, l.cl_from_node = some o → linkSrcId g l = o)) ∧
    (childrenOf g l.from_node = [] →
        linkClusterSrc g l = none ∧ linkSrcId g l = l.from_node) ∧
    (∀ c cs, childrenOf g l.to_node = c :: cs →
        linkClusterDst g l = some l.to_node ∧
        (l.cl_to_node = none → linkDstId g l = c.id) ∧
        (∀ o, l.cl_to_node = some o → linkDstId g l = o)) ∧
    (childrenOf g l.to_node = [] →
        linkClusterDst g l = none ∧ linkDstId g l = l.to_node) ∧
    (∀ ps s, propertiesLinkAsStringGet g l = some ps → linkPropsFull g l = some s →
        ((∀ fc, linkClusterSrc g l = some fc →
            List.IsInfix ("ltail=cluster" ++ toString fc).data s.data) ∧
         (∀ tc, linkClusterDst g l = some tc →
            List.IsInfix ("lhead=cluster" ++ toString tc).data s.data) ∧
         (linkClusterSrc g l = none → linkClusterDst g l = none → s = ps))) ∧
    (∀ s, linkPropsFull g l = some s →
        renderLink g l
          = some ("   " ++ "node" ++ toString (linkSrcId g l) ++ "->node"
              ++ toString (linkDstId g l)
              ++ (if s.isEmpty then "" else " [" ++ s ++ "]") ++ ";\n")) := by
  refine ⟨?_, ?_, ?_, ?_, ?_, ?_⟩
  · intro c cs hc
    refine ⟨by simp [linkClusterSrc, hc], ?_, ?_⟩
    · intro ho; simp [linkSrcId, hc, ho]
    · intro o ho; simp [linkSrcId, hc, ho]
  · intro hc
    exact ⟨by simp [linkClusterSrc, hc], by simp [linkSrcId, hc]⟩
  · intro c cs hc
    refine ⟨by simp [linkClusterDst, hc], ?_, ?_⟩
    · intro ho; simp [linkDstId, hc, ho]
    · intro o ho; simp [linkDstId, hc, ho]
  · intro hc
    exact ⟨by simp [linkClusterDst, hc], by simp [linkDstId, hc]⟩
  · intro ps s hps hs
    unfold linkPropsFull at hs
    rw [hps] at hs
    refine ⟨?_, ?_, ?_⟩
    · intro fc hfc
      simp only [hfc] at hs
      cases hcd : linkClusterDst g l with
      | none =>
        simp only [hcd, Option.some_inj] at hs
        subst hs
        exact ⟨(if ps.isEmpty then ps else ps ++ ",").data, [],
          by simp [String.data_append]⟩
      | some tc =>
        simp only [hcd, Option.some_inj] at hs
        subst hs
        by_cases hpe :
            ((if ps.isEmpty then ps else ps ++ ",") ++ "ltail=cluster" ++ toString fc).isEmpty
        · exfalso
          revert hpe
          simp [String.isEmpty_iff, String.ext_iff, String.data_append]
        · rw [if_neg hpe]
          exact ⟨(if ps.isEmpty then ps else ps ++ ",").data,
            ("," ++ "lhead=cluster" ++ toString tc).data,
            by simp [String.data_append]⟩
    · intro tc htc
      simp only [htc] at hs
      cases hcs : linkClusterSrc g l with
      | none =>
        simp only [hcs, Option.some_inj] at hs
        subst hs
        exact ⟨(if ps.isEmpty then ps else ps ++ ",").data, [],
          by simp [String.data_append]⟩
      | some fc =>
        simp only [hcs, Option.some_inj] at hs
        subst hs
        refine ⟨?_, [], ?_⟩
        · exact (if ((if ps.isEmpty then ps else ps ++ ",") ++ "ltail=cluster" ++ toString fc).isEmpty
            then ((if ps.isEmpty then ps else ps ++ ",") ++ "ltail=cluster" ++ toString fc)
            else ((if ps.isEmpty then ps else ps ++ ",") ++ "ltail=cluster" ++ toString fc) ++ ",").data
        · simp [String.data_append]
    · intro h1 h2
      simp only [h1, h2, Option.some_inj] at hs
      exact hs.symm
  · intro s hs
    unfold renderLink
    rw [hs]

/-- C6 (witness): cluster `1` (children `2`, `3` in creation order) linked
to leaf `4` with no overrides renders from endpoint `2` to endpoint `4`
and carries `ltail=cluster1`. -/
theorem C6_witness :
    linkSrcId clusterG clusterLink = 2 ∧
    linkClusterSrc clusterG clusterLink = some 1 ∧
    linkDstId clusterG clusterLink = 4 ∧
    linkClusterDst clusterG clusterLink = none ∧
    List.IsInfix ("ltail=cluster" ++ toString 1).data "ltail=cluster1".data ∧
    renderLink clusterG clusterLink = some "   node2->node4 [ltail=cluster1];\n" := by
  have h := C6_cluster_endpoints clusterG clusterLink
  refine ⟨?_, ?_, ?_, ?_, ?_, ?_⟩
  · exact (h.1 { id := 2, parent := some 1, style := none, properties := [("label", "n1")] }
      [{ id := 3, parent := some 1, style := none, properties := [("label", "n2")] }]
      (by with_unfolding_all decide)).2.1 (by decide)
  · exact (h.1 { id := 2, parent := some 1, style := none, properties := [("label", "n1")] }
      [{ id := 3, parent := some 1, style := none, properties := [("label", "n2")] }]
      (by with_unfolding_all decide)).1
  · exact (h.2.2.2.1 (by with_unfolding_all decide)).2
  · exact (h.2.2.2.1 (by with_unfolding_all decide)).1
  · exact ((h.2.2.2.2.1 "" "ltail=cluster1" (by with_unfolding_all decide)
      (by with_unfolding_all decide)).1 1 (by with_unfolding_all decide))
  · have hr := h.2.2.2.2.2 "ltail=cluster1" (by with_unfolding_all decide)
    rw [hr]
    with_unfolding_all decide

/-! ## Heap-stability lemmas (for the detached-handle claim) -/

theorem modifyIdx_getD {α : Type} (l : List α) (i : Nat) (f : α → α) (j : Nat) (d : α) :
    (modifyIdx l i f).getD j d
      = if j = i ∧ j < l.length then f (l.getD j d) else l.getD j d := by
  induction l generalizing i j with
  | nil => simp [modifyIdx]
  | cons x xs ih =>
    cases i with
    | zero =>
      cases j with
      | zero => simp [modifyIdx]
      | succ j => simp [modifyIdx]
    | succ i =>
      cases j with
      | zero => simp [modifyIdx]
      | succ j =>
        simp only [modifyIdx, List.getD_cons_succ, ih, List.length_cons]
        by_cases hj : j = i ∧ j < xs.length
        · rw [if_pos hj, if_pos (by omega)]
        · rw [if_neg hj, if_neg (by omega)]

theorem heapGet_append_lt (g : GvGen) (x : Link) (i : Nat) (hi : i < g.linkHeap.length) :
    heapGet { g with linkHeap := g.linkHeap ++ [x] } i = heapGet g i := by
  unfold heapGet
  exact List.getD_append _ _ _ _ hi

theorem heapGet_append_self (g : GvGen) (x : Link) :
    heapGet { g with linkHeap := g.linkHeap ++ [x] } g.linkHeap.length = x := by
  unfold heapGet
  simp [List.getD_eq_getElem?_getD]

theorem heapGet_propertyAppend_ne (g : GvGen) (i : Nat) (k v : String) (j : Nat)
    (hne : j ≠ i) :
    heapGet (linkPropertyAppend g i k v) j = heapGet g j := by
  unfold linkPropertyAppend heapGet
  simp only [modifyIdx_getD]
  rw [if_neg (by omega)]

theorem heapGet_propertyAppend_from (g : GvGen) (i : Nat) (k v : String) (j : Nat) :
    (heapGet (linkPropertyAppend g i k v) j).from_node = (heapGet g j).from_node := by
  unfold linkPropertyAppend heapGet
  simp only [modifyIdx_getD]
  by_cases hj : j = i ∧ j < g.linkHeap.length
  · rw [if_pos hj]
  · rw [if_neg hj]

theorem heapGet_propertyAppend_to (g : GvGen) (i : Nat) (k v : String) (j : Nat) :
    (heapGet (linkPropertyAppend g i k v) j).to_node = (heapGet g j).to_node := by
  unfold linkPropertyAppend heapGet
  simp only [modifyIdx_getD]
  by_cases hj : j = i ∧ j < g.linkHeap.length
  · rw [if_pos hj]
  · rw [if_neg hj]

theorem eraseFirstP_subset (l : List Nat) (p : Nat → Bool) :
    ∀ x ∈ eraseFirstP l p, x ∈ l := by
  induction l with
  | nil => intro x hx; cases hx
  | cons a l ih =>
    intro x hx
    unfold eraseFirstP at hx
    split at hx
    · exact List.mem_cons_of_mem a hx
    · rcases List.mem_cons.mp hx with h | h
      · exact h ▸ List.mem_cons_self a l
      · exact List.mem_cons_of_mem a (ih x h)

theorem find?_congr_on {α : Type} (l : List α) (p q : α → Bool)
    (h : ∀ a ∈ l, p a = q a) : l.find? p = l.find? q := by
  induction l with
  | nil => rfl
  | cons a l ih =>
    rw [List.find?_cons, List.find?_cons, h a (List.mem_cons_self a l)]
    split
    · rfl
    · exact ih (fun b hb => h b (List.mem_cons_of_mem a hb))

theorem link_exists_congr (g g' : GvGen) (hl : g'.links = g.links)
    (hh : ∀ i ∈ g.links, heapGet g' i = heapGet g i) (f t : Nat) :
    link_exists g' f t = link_exists g f t := by
  unfold link_exists
  rw [hl]
  exact find?_congr_on _ _ _ (fun i hi => by rw [hh i hi])

theorem renderLink_heap_irrel (g g' : GvGen) (hn : g'.nodes = g.nodes)
    (hs : g'.styles = g.styles) (l : Link) :
    renderLink g' l = renderLink g l := by
  unfold renderLink linkPropsFull propertiesLinkAsStringGet linkAllProps linkSrcId
    linkDstId linkClusterSrc linkClusterDst childrenOf
  rw [hn, hs]

theorem heapGet_set_links (g : GvGen) (L : List Nat) (i : Nat) :
    heapGet { g with links := L } i = heapGet g i := rfl

theorem link_smart_nodes (g : GvGen) (h : Nat) : (link_smart g h).nodes = g.nodes := by
  simp only [link_smart]
  repeat' split
  all_goals rfl

theorem link_smart_styles (g : GvGen) (h : Nat) : (link_smart g h).styles = g.styles := by
  simp only [link_smart]
  repeat' split
  all_goals rfl

theorem link_smart_heapGet_from (g : GvGen) (h i : Nat) :
    (heapGet (link_smart g h) i).from_node = (heapGet g i).from_node := by
  simp only [link_smart]
  repeat' split
  all_goals
    first
      | rfl
      | simp only [heapGet_set_links, heapGet_propertyAppend_from]

theorem link_smart_heapGet_to (g : GvGen) (h i : Nat) :
    (heapGet (link_smart g h) i).to_node = (heapGet g i).to_node := by
  simp only [link_smart]
  repeat' split
  all_goals
    first
      | rfl
      | simp only [heapGet_set_links, heapGet_propertyAppend_to]

/-- When a forward link already exists, `__link_smart` never appends: the
resulting storage list is the old one, possibly with one element erased
(the reverse link), and in particular gains nothing. -/
theorem link_smart_links_of_forward (g : GvGen) (h j : Nat)
    (hfwd : link_exists g (heapGet g h).from_node (heapGet g h).to_node = some j) :
    (link_smart g h).links = g.links ∨
    ∃ p, (link_smart g h).links = eraseFirstP g.links p := by
  simp only [link_smart, hfwd, Option.isNone_some, Bool.false_eq_true, if_false]
  cases hsm : g.smart_mode with
  | false =>
    simp only [hsm, Bool.false_eq_true, if_false]
    exact Or.inl trivial
  | true =>
    simp only [hsm, if_true]
    cases hlt : link_exists g (heapGet g h).to_node (heapGet g h).from_node with
    | none =>
      simp only [hlt]
      left
      repeat' split
      all_goals first | rfl | trivial
    | some j2 =>
      simp only [hlt]
      right
      refine ⟨fun i => decide (heapGet g i = heapGet g j2), ?_⟩
      repeat' split
      all_goals first | rfl | trivial

/-! ## Claim C10 -/

/-- C10: `createLink` always returns the newly constructed link record;
when a forward link with the same endpoints already exists, the new record
(handle = old heap length) is not inserted into storage and differs from
the stored link, and property mutations applied through the returned
handle leave the serialized link output unchanged. -/
theorem C10_detached_handle (g : GvGen) (A B : Nat) (label : Option String)
    (cf ct : Option Nat) (j : Nat)
    (hbound : ∀ i ∈ g.links, i < g.linkHeap.length)
    (hfwd : link_exists g A B = some j) :
    (link_new g A B label cf ct).2 = g.linkHeap.length ∧
    (heapGet (link_new g A B label cf ct).1 (link_new g A B label cf ct).2).from_node = A ∧
    (heapGet (link_new g A B label cf ct).1 (link_new g A B label cf ct).2).to_node = B ∧
    (link_new g A B label cf ct).2 ≠ j ∧
    (link_new g A B label cf ct).2 ∉ (link_new g A B label cf ct).1.links ∧
    (∀ key v,
        dotLinksOutput
          (linkPropertyAppend (link_new g A B label cf ct).1 (link_new g A B label cf ct).2 key v)
          = dotLinksOutput (link_new g A B label cf ct).1) := by
  -- the freshly constructed record and the heap-extended intermediate state
  set nl : Link :=
    { from_node := A, to_node := B, style := none
      properties :=
        match label with
        | some s => if s.isEmpty then [] else [("label", s)]
        | none => []
      cl_from_node := cf, cl_to_node := ct } with hnl
  set g1 : GvGen := { g with linkHeap := g.linkHeap ++ [nl] } with hg1
  set h : Nat := g.linkHeap.length with hh
  have hr : link_new g A B label cf ct = (link_smart g1 h, h) := rfl
  have f1 : heapGet g1 h = nl := heapGet_append_self g nl
  have f2 : ∀ i ∈ g.links, heapGet g1 i = heapGet g i :=
    fun i hi => heapGet_append_lt g nl i (hbound i hi)
  have f3 : g1.links = g.links := rfl
  have f4 : link_exists g1 A B = some j := by
    rw [link_exists_congr g g1 f3 f2 A B]
    exact hfwd
  have f5 : link_exists g1 (heapGet g1 h).from_node (heapGet g1 h).to_node = some j := by
    rw [f1]
    exact f4
  have hjmem : j ∈ g.links := List.mem_of_find?_eq_some hfwd
  have hjlt : j < h := hbound j hjmem
  have hmem : ∀ x ∈ (link_smart g1 h).links, x ∈ g.links := by
    intro x hx
    rcases link_smart_links_of_forward g1 h j f5 with hc | ⟨p, hc⟩
    · rw [hc] at hx; exact hx
    · rw [hc] at hx; exact eraseFirstP_subset _ _ x hx
  have hnotin : h ∉ (link_smart g1 h).links := by
    intro hx
    exact absurd (hbound h (hmem h hx)) (by omega)
  refine ⟨by rw [hr], ?_, ?_, by rw [hr]; show h ≠ j; omega, by rw [hr]; exact hnotin, ?_⟩
  · rw [hr]
    show (heapGet (link_smart g1 h) h).from_node = A
    rw [link_smart_heapGet_from, f1]
  · rw [hr]
    show (heapGet (link_smart g1 h) h).to_node = B
    rw [link_smart_heapGet_to, f1]
  · intro key v
    rw [hr]
    show dotLinksOutput (linkPropertyAppend (link_smart g1 h) h key v)
        = dotLinksOutput (link_smart g1 h)
    set g2 := link_smart g1 h with hg2
    set gm := linkPropertyAppend g2 h key v with hgm
    have hn : gm.nodes = g2.nodes := rfl
    have hs : gm.styles = g2.styles := rfl
    have hl : gm.links = g2.links := rfl
    have hne : ∀ i ∈ g2.links, i ≠ h := by
      intro i hi
      have := hbound i (hmem i hi)
      omega
    have hstable : ∀ i ∈ g2.links, heapGet gm i = heapGet g2 i := by
      intro i hi
      exact heapGet_propertyAppend_ne g2 h key v i (hne i hi)
    unfold dotLinksOutput
    rw [hn, hl]
    congr 1
    apply List.map_congr_left
    intro e he
    rw [List.filter_congr (fun i hi => by rw [hstable i hi])]
    apply List.map_congr_left
    intro i hi
    have hi2 : i ∈ g2.links := List.mem_of_mem_filter hi
    rw [hstable i hi2]
    exact renderLink_heap_irrel g2 gm hn hs (heapGet g2 i)

/-- C10 (witness): on the graph that already stores `1 → 2`, a second
`createLink(1, 2)` returns handle 1, which is absent from storage, and a
property appended through it does not change the emitted link section. -/
theorem C10_witness :
    (link_new (link_new twoNodeG 1 2 none none none).1 1 2 none none none).2 = 1 ∧
    (link_new (link_new twoNodeG 1 2 none none none).1 1 2 none none none).2
      ∉ (link_new (link_new twoNodeG 1 2 none none none).1 1 2 none none none).1.links ∧
    dotLinksOutput
        (linkPropertyAppend
          (link_new (link_new twoNodeG 1 2 none none none).1 1 2 none none none).1
          (link_new (link_new twoNodeG 1 2 none none none).1 1 2 none none none).2
          "color" "red")
      = dotLinksOutput (link_new (link_new twoNodeG 1 2 none none none).1 1 2 none none none).1 := by
  have h := C10_detached_handle (link_new twoNodeG 1 2 none none none).1 1 2 none none none 0
    (by with_unfolding_all decide) (by with_unfolding_all decide)
  refine ⟨?_, h.2.2.2.2.1, h.2.2.2.2.2 "color" "red"⟩
  rw [h.1]
  with_unfolding_all decide

/-! ## Claim C4: repeated smart links and the arrowsize cap -/

theorem pwStep : ∀ q ∈ pwSet, (if q + 1 < 10 then q + 1 else q) ∈ pwSet := by
  with_unfolding_all decide

theorem awStep : ∀ q ∈ awSet, (if q < 2 then q + 1/2 else q) ∈ awSet := by
  with_unfolding_all decide

theorem pwVal_mem (n : Nat) : pwVal n ∈ pwSet := by
  induction n with
  | zero => with_unfolding_all decide
  | succ n ih => exact pwStep _ ih

theorem awVal_mem (n : Nat) : awVal n ∈ awSet := by
  induction n with
  | zero => with_unfolding_all decide
  | succ n ih => exact awStep _ ih

theorem pwPrint : ∀ q ∈ pwSet, parseDec (printDec q) = q ∧ (printDec q).isEmpty = false := by
  with_unfolding_all decide

theorem awPrint : ∀ q ∈ awSet, parseDec (printDec q) = q ∧ (printDec q).isEmpty = false := by
  with_unfolding_all decide

theorem awBound : ∀ q ∈ awSet, q ≤ 23/10 := by
  with_unfolding_all decide

theorem dGet_pen (X Y : String) :
    dGet [("penwidth", X), ("arrowsize", Y)] "penwidth" = some X := by
  simp [dGet, List.find?_cons]

theorem dGet_arrow (X Y : String) :
    dGet [("penwidth", X), ("arrowsize", Y)] "arrowsize" = some Y := by
  simp [dGet, List.find?_cons]

theorem dSet_pen (X Y Z : String) :
    dSet [("penwidth", X), ("arrowsize", Y)] "penwidth" Z = [("penwidth", Z), ("arrowsize", Y)] := by
  simp [dSet, List.find?_cons]

theorem dSet_arrow (X Y Z : String) :
    dSet [("penwidth", X), ("arrowsize", Y)] "arrowsize" Z = [("penwidth", X), ("arrowsize", Z)] := by
  simp [dSet, List.find?_cons]

theorem link_new_repState (n : Nat) :
    (link_new (repState n) 1 2 none none none).1 = repState (n+1) := by
  obtain ⟨hrt_pw, hne_pw⟩ := pwPrint _ (pwVal_mem n)
  obtain ⟨hrt_aw, hne_aw⟩ := awPrint _ (awVal_mem n)
  by_cases hpw : pwVal n + 1 < 10 <;> by_cases haw : awVal n < 2 <;>
    simp [link_new, link_smart, link_exists, repState, twoNodeSmartG, twoNodeG, initGvGen,
      heapGet, mainRec, plainRec, linkPropertyAppend, modifyIdx, dGet_pen, dGet_arrow,
      dSet_pen, dSet_arrow, truthy, propertyGet, hrt_pw, hne_pw, hrt_aw, hne_aw,
      pwVal, awVal, hpw, haw, List.replicate_succ', node_new]

/-- Closed form of the repeated-creation scenario: after `n+1` smart
`createLink(1, 2)` calls the state stores exactly the single evolving link
at handle 0 plus `n` detached bare records on the heap. -/
theorem repLink_closed (n : Nat) : repLink (n+1) = repState n := by
  induction n with
  | zero => with_unfolding_all decide
  | succ n ih =>
    show (link_new (repLink (n+1)) 1 2 none none none).1 = repState (n+1)
    rw [ih, link_new_repState]

/-- C4 (counterexample): after four repeated smart `createLink(A, B)`
calls the stored link's arrowsize is `"2.3"`, which *exceeds* the cap
`max_arrow_width = 2` — the code checks the cap before incrementing, so
the written value can overshoot it. -/
theorem C4_counterexample :
    dGet (heapGet (repLink 4) 0).properties "arrowsize" = some "2.3" ∧
    twoNodeSmartG.max_arrow_width < parseDec "2.3" := by
  constructor <;> with_unfolding_all decide

/-- C4 (amended): in smart mode, repeated creation of the same directed
link keeps exactly one stored link and increments its arrowsize by the
arrow step (default 0.5) only while the current value is below the cap
(default 2), so the stored arrowsize never exceeds 2.3 = 1.8 + step (one
step above the largest value strictly below the cap), though it can
exceed the cap itself. -/
theorem C4_amended_arrowsize_bound (n : Nat) (hn : 1 ≤ n) :
    (repLink n).links = [0] ∧
    ∃ s, dGet (heapGet (repLink n) 0).properties "arrowsize" = some s ∧
      parseDec s ≤ 23/10 := by
  obtain ⟨m, rfl⟩ : ∃ m, n = m + 1 := ⟨n - 1, by omega⟩
  rw [repLink_closed m]
  refine ⟨rfl, printDec (awVal m), ?_, ?_⟩
  · show dGet (heapGet (repState m) 0).properties "arrowsize" = _
    simp [repState, heapGet, mainRec, dGet_arrow]
  · rw [(awPrint _ (awVal_mem m)).1]
    exact awBound _ (awVal_mem m)

/-- C4 (witness): the amended bound evaluated after five calls. -/
theorem C4_witness :
    (repLink 5).links = [0] ∧
    ∃ s, dGet (heapGet (repLink 5) 0).properties "arrowsize" = some s ∧
      parseDec s ≤ 23/10 :=
  C4_amended_arrowsize_bound 5 (by decide)
